import Mathlib

/-!
# Verification of the claudeconvo/claudelog session-log viewer

Shallow embedding of the core components of the repository:

* `parse_entry`, `find_field`, `extract_message` and the content-text
  extraction of `src/claudelog/parsers/adaptive.py` (the `AdaptiveParser`
  default configuration; no `field_mappings.json` file ships with the
  sources, so `_load_config` falls back to the hard-coded defaults);
* the depth-bounded `_extract_text_from_content` of
  `src/claudelog/parsers/base.py`;
* `ShowOptions` of `src/claudelog/claudelog.py` (option-string parsing,
  `should_truncate`, `get_max_length`);
* the formatting pipeline of `src/claudelog/formatters.py`
  (`truncate_text`, `extract_message_text`, `format_tool_use`,
  `format_tool_result`, `format_conversation_entry`);
* the per-tick line processing of `watch_session_file` in
  `src/claudelog/watcher.py`;
* the file-level guards of `parse_session_file` in
  `src/claudelog/session.py`;
* the tool-invocation correlation table (spec §4.3; the implementation
  module `claudeconvo/tool_tracker.py` is referenced by the test suite but
  is not among the sources, so its two operations are modelled from the
  spec, marked `Modelled from the spec:` below).

Python data is modelled by the `Json` type below (Python `None` is
`Json.null`); Python dictionaries are insertion-ordered association lists
with unique keys, exactly as `dict` guarantees.  Python functions that can
raise are modelled in `Except String`; the exception text stands for the
exception class name.  The two recursive text extractors recurse through
`json.loads`-produced values along looked-up fields, which is not a
structural descent, so they are defined with a fuel argument instantiated
at the term's `sizeOf`; every recursive call strictly decreases `sizeOf`,
so the fuel-exhausted branch is unreachable from the wrappers (Python
relies on the call stack in the same way).
-/

/-- A JSON value as produced by `json.loads`, doubling as the model of the
Python values the program manipulates (`Json.null` is Python `None`).
Numbers are integers; no claim involves floats. -/
inductive Json where
  | null
  | bool (b : Bool)
  | num (n : Int)
  | str (s : String)
  | arr (elems : List Json)
  | obj (members : List (String × Json))

namespace Json

mutual
/-- Structural equality on JSON values (Python `==` on loaded values). -/
def beq : Json → Json → Bool
  | .null, .null => true
  | .bool a, .bool b => a == b
  | .num a, .num b => a == b
  | .str a, .str b => a == b
  | .arr a, .arr b => beqList a b
  | .obj a, .obj b => beqMembers a b
  | _, _ => false

def beqList : List Json → List Json → Bool
  | [], [] => true
  | a :: as, b :: bs => beq a b && beqList as bs
  | _, _ => false

def beqMembers : List (String × Json) → List (String × Json) → Bool
  | [], [] => true
  | (k, v) :: as, (k', v') :: bs => k == k' && beq v v' && beqMembers as bs
  | _, _ => false
end

instance : BEq Json := ⟨beq⟩

mutual
theorem beq_refl : ∀ a : Json, beq a a = true
  | .null => rfl
  | .bool b => by simp [beq]
  | .num n => by simp [beq]
  | .str s => by simp [beq]
  | .arr es => by simp [beq, beqList_refl es]
  | .obj ms => by simp [beq, beqMembers_refl ms]

theorem beqList_refl : ∀ es : List Json, beqList es es = true
  | [] => rfl
  | e :: es => by simp [beqList, beq_refl e, beqList_refl es]

theorem beqMembers_refl : ∀ ms : List (String × Json), beqMembers ms ms = true
  | [] => rfl
  | (k, v) :: ms => by simp [beqMembers, beq_refl v, beqMembers_refl ms]
end

/-- First-match association lookup: Python `d[k]` / `d.get(k)` on a dict. -/
def get : Json → String → Option Json
  | .obj kvs, k => kvs.lookup k
  | _, _ => none

/-- Python `d.get(k, default)`. -/
def getD (j : Json) (k : String) (d : Json) : Json :=
  (j.get k).getD d

/-- Python `k in d` (for dicts; `False` on any other value). -/
def hasKey (j : Json) (k : String) : Bool :=
  (j.get k).isSome

/-- Python truthiness of a value: `None`, `False`, `0`, `""`, `[]` and
an empty dict are falsy, everything else truthy. -/
def truthy : Json → Bool
  | .null => false
  | .bool b => b
  | .num n => n != 0
  | .str s => s != ""
  | .arr es => !es.isEmpty
  | .obj ms => !ms.isEmpty

/-- `isinstance(j, dict)`. -/
def isDict : Json → Bool
  | .obj _ => true
  | _ => false

/-- `isinstance(j, str)`. -/
def isStr : Json → Bool
  | .str _ => true
  | _ => false

/-- `isinstance(j, list)`. -/
def isList : Json → Bool
  | .arr _ => true
  | _ => false

mutual
/-- Term size of a JSON value (an executable replacement for `sizeOf`). -/
def size : Json → Nat
  | .null => 1
  | .bool _ => 1
  | .num _ => 1
  | .str _ => 1
  | .arr es => 1 + sizeList es
  | .obj ms => 1 + sizeMembers ms

def sizeList : List Json → Nat
  | [] => 0
  | e :: es => size e + sizeList es

def sizeMembers : List (String × Json) → Nat
  | [] => 0
  | (_, v) :: ms => 1 + size v + sizeMembers ms
end

end Json

/-- Python truthiness of an optional string (`text` variables in the
extractors are either `None` or a string): truthy iff present and
non-empty. -/
def optTruthy : Option String → Bool
  | none => false
  | some s => s != ""

/-- `s.startswith(p)` (character-list based so that proofs can evaluate it). -/
def strStartsWith (s p : String) : Bool := p.toList.isPrefixOf s.toList

/-- `s[n:]` on a string (character-list based so that proofs can evaluate it). -/
def strDrop (s : String) (n : Nat) : String := ⟨s.toList.drop n⟩

/-- `s[:n]` on a string (character-list based so that proofs can evaluate it). -/
def strTake (s : String) (n : Nat) : String := ⟨s.toList.take n⟩

/-- Python `len(s)` (number of characters). -/
def strLen (s : String) : Nat := s.toList.length

mutual
/-- Python `repr` of a JSON-shaped value, used by `str(...)` on lists and
dicts (single-quoted strings; exact escaping of exotic characters is not
modelled — no claim depends on it). -/
def pyRepr : Json → String
  | .null => "None"
  | .bool b => if b then "True" else "False"
  | .num n => toString n
  | .str s => "'" ++ s ++ "'"
  | .arr es => "[" ++ String.intercalate ", " (pyReprList es) ++ "]"
  | .obj ms => "\x7b" ++ String.intercalate ", " (pyReprMembers ms) ++ "\x7d"

def pyReprList : List Json → List String
  | [] => []
  | e :: es => pyRepr e :: pyReprList es

def pyReprMembers : List (String × Json) → List String
  | [] => []
  | (k, v) :: ms => ("'" ++ k ++ "': " ++ pyRepr v) :: pyReprMembers ms
end

/-- Python `str(...)` (also what an f-string interpolation produces). -/
def pyStr : Json → String
  | .null => "None"
  | .bool b => if b then "True" else "False"
  | .num n => toString n
  | .str s => s
  | .arr es => pyRepr (.arr es)
  | .obj ms => pyRepr (.obj ms)

mutual
/-- `json.dumps` with the default separators (only JSON-representable
values exist in the model, so serialization always succeeds; exact string
escaping is not modelled — no claim depends on it). -/
def jsonDumps : Json → String
  | .null => "null"
  | .bool b => if b then "true" else "false"
  | .num n => toString n
  | .str s => "\"" ++ s ++ "\""
  | .arr es => "[" ++ String.intercalate ", " (jsonDumpsList es) ++ "]"
  | .obj ms => "\x7b" ++ String.intercalate ", " (jsonDumpsMembers ms) ++ "\x7d"

def jsonDumpsList : List Json → List String
  | [] => []
  | e :: es => jsonDumps e :: jsonDumpsList es

def jsonDumpsMembers : List (String × Json) → List String
  | [] => []
  | (k, v) :: ms => ("\"" ++ k ++ "\": " ++ jsonDumps v) :: jsonDumpsMembers ms
end

namespace AdaptiveParser

/-! Default configuration of `AdaptiveParser._load_config` (adaptive.py
lines 42-57); the packaged sources contain no `field_mappings.json`, so
these hard-coded defaults are the live configuration. -/

def contentAliases : List String := ["content", "text", "message", "body", "data"]

def roleAliases : List String := ["role", "type", "sender", "author"]

def timestampAliases : List String := ["timestamp", "time", "created", "createdAt", "datetime"]

def versionAliases : List String := ["version", "ver", "v"]

def toolResultAliases : List String :=
  ["toolUseResult", "tool_result", "toolResult", "result", "output"]

def toolUseTypes : List String := ["tool_use", "tool", "function_call"]

def toolNameFields : List String := ["name", "tool", "function"]

def toolIdFields : List String := ["id", "tool_id", "call_id"]

def toolInputFields : List String := ["input", "arguments", "params", "data"]

/-- `AdaptiveParser._find_field`: first candidate key present in the
mapping wins; `None` when no candidate is present. -/
def find_field (obj : Json) (candidates : List String) : Option Json :=
  match candidates with
  | [] => none
  | f :: rest => if obj.hasKey f then obj.get f else find_field obj rest

/-- `AdaptiveParser._guess_role` (adaptive.py lines 174-183). -/
def guess_role (entry : Json) : String :=
  match find_field entry ["type", "entryType"] with
  | some (.str s) =>
      if s ∈ ["user", "human", "input"] then "user"
      else if s ∈ ["assistant", "ai", "claude", "output"] then "assistant"
      else if s ∈ ["system", "info", "meta"] then "system"
      else "unknown"
  | _ => "unknown"

/-- `AdaptiveParser._normalize_message_dict` (adaptive.py lines 156-172).
`normalized['role']` uses Python `or`: a falsy alias hit degrades to
`"unknown"`. -/
def normalize_message_dict (message : Json) : Json :=
  let roleVal :=
    match find_field message roleAliases with
    | some v => if v.truthy then v else .str "unknown"
    | none => .str "unknown"
  let content := (find_field message contentAliases).getD .null
  let preserved := ["id", "model", "usage", "stop_reason"].filterMap fun k =>
    (message.get k).map fun v => (k, v)
  .obj ([("role", roleVal), ("content", content)] ++ preserved)

/-- `AdaptiveParser._extract_message` (adaptive.py lines 126-154). -/
def extract_message (entry : Json) : Json :=
  let message₀ := (find_field entry ["message", "msg", "data", "payload"]).getD .null
  let message :=
    if !message₀.truthy then
      if entry.hasKey "content" || entry.hasKey "text" then entry else .null
    else message₀
  if !message.truthy then .null
  else
    match message with
    | .str s => .obj [("role", .str (guess_role entry)), ("content", .str s)]
    | .obj ms => normalize_message_dict (.obj ms)
    | .arr es => .obj [("role", .str (guess_role entry)), ("content", .arr es)]
    | _ => .null

/-- The keys of the normalized dictionary before the unknown-key loop of
`parse_entry` runs, in insertion order (adaptive.py lines 76-107). -/
def canonicalOutputKeys : List String :=
  ["_raw", "type", "timestamp", "version", "uuid", "sessionId", "requestId",
   "parentUuid", "message", "isMeta", "isSidechain", "toolUseResult", "cwd",
   "gitBranch", "userType", "level"]

/-- The canonical portion of the normalized entry built by `parse_entry`
for a non-summary dict (adaptive.py lines 76-107), in insertion order.
Alias lists absent from the default `field_aliases` table fall back to the
literal defaults passed to `.get` in the source. -/
def canonicalPairs (entry : Json) : List (String × Json) :=
  [("_raw", entry),
   ("type", (find_field entry ["type", "entryType", "kind"]).getD .null),
   ("timestamp", (find_field entry timestampAliases).getD .null),
   ("version", (find_field entry versionAliases).getD .null),
   ("uuid", (find_field entry ["uuid", "id"]).getD .null),
   ("sessionId", (find_field entry ["sessionId"]).getD .null),
   ("requestId", (find_field entry ["requestId"]).getD .null),
   ("parentUuid", (find_field entry ["parentUuid"]).getD .null),
   ("message", extract_message entry),
   ("isMeta", (find_field entry ["isMeta"]).getD .null),
   ("isSidechain", (find_field entry ["isSidechain"]).getD .null),
   ("toolUseResult", (find_field entry toolResultAliases).getD .null),
   ("cwd", (find_field entry ["cwd"]).getD .null),
   ("gitBranch", (find_field entry ["gitBranch"]).getD .null),
   ("userType", (find_field entry ["userType"]).getD .null),
   ("level", (find_field entry ["level"]).getD .null)]

/-- Whether a key is already present in the association list being built
(Python `key not in normalized`, negated). -/
def hasKeyList (kvs : List (String × Json)) (k : String) : Bool :=
  (kvs.lookup k).isSome

/-- The unknown-key loop of `parse_entry` (adaptive.py lines 110-112):
`for key, value in entry.items(): if key not in normalized and not
key.startswith('_'): normalized[f'_unknown_' + key] = value`, threaded
over the growing dictionary exactly as the source does. -/
def unknownLoop (base : List (String × Json)) (items : List (String × Json)) :
    List (String × Json) :=
  items.foldl
    (fun acc kv =>
      if !strStartsWith kv.1 "_" && !hasKeyList acc kv.1 then
        acc ++ [("_unknown_" ++ kv.1, kv.2)]
      else acc)
    base

/-- Whether `parse_entry` takes the summary shortcut: the discovered entry
type equals the string `"summary"`. -/
def isSummaryEntry (entry : Json) : Bool :=
  find_field entry ["type", "entryType", "kind"] == some (.str "summary")

/-- `AdaptiveParser.parse_entry` (adaptive.py lines 59-114). -/
def parse_entry (entry : Json) : Json :=
  match entry with
  | .obj kvs =>
      if isSummaryEntry (.obj kvs) then .obj kvs
      else .obj (unknownLoop (canonicalPairs (.obj kvs)) kvs)
  | e => .obj [("_raw", e), ("_parse_error", .str "Not a dictionary")]

/-- The unknown-namespace keys of a normalized entry: keys carrying the
`_unknown_` marker, with the marker stripped (the original raw names). -/
def unknownKeysOf (j : Json) : List String :=
  match j with
  | .obj kvs => kvs.filterMap fun kv =>
      if strStartsWith kv.1 "_unknown_" then some (strDrop kv.1 9) else none
  | _ => []

/-- The unknown-namespace pairs of a normalized entry (key still carrying
the `_unknown_` marker, value as stored). -/
def unknownPairsOf (j : Json) : List (String × Json) :=
  match j with
  | .obj kvs => kvs.filter fun kv => strStartsWith kv.1 "_unknown_"
  | _ => []

mutual
/-- `AdaptiveParser._extract_text_from_content` (adaptive.py lines
197-252).  Unlike the base parser's version this function takes NO depth
argument and imposes no recursion bound.  The fuel argument only makes the
non-structural recursion (through looked-up fields) total in Lean; each
Python-level call consumes one unit, and the wrapper below supplies more
fuel than any finite value can consume, mirroring Python's reliance on the
call stack. -/
def extAdaptive : Nat → Json → Option String
  | 0, _ => none
  | fuel + 1, c =>
    match c with
    | .null => none
    | .str s => some s
    | .num n => some (toString n)
    | .bool b => some (if b then "True" else "False")
    | .arr items =>
        let texts := extAdaptiveItems fuel items
        if texts.isEmpty then none else some (String.intercalate "\n" texts)
    | .obj kvs =>
        match extAdaptiveDictFields fuel (.obj kvs)
            ["text", "content", "value", "body", "message"] with
        | some t => some t
        | none =>
            if (Json.getD (.obj kvs) "type" .null).beq (.str "text") then
              if (Json.obj kvs).hasKey "text" then
                extAdaptive fuel ((Json.obj kvs).getD "text" .null)
              else if (Json.obj kvs).hasKey "content" then
                extAdaptive fuel ((Json.obj kvs).getD "content" .null)
              else some (jsonDumps (.obj kvs))
            else some (jsonDumps (.obj kvs))

/-- The per-item loop of the list branch (adaptive.py lines 209-231):
dict items search `text`/`content`/`value`/`data` then the `type == text`
special case; string items pass through; anything else is `str(...)`-ed;
only truthy texts are collected. -/
def extAdaptiveItems : Nat → List Json → List String
  | 0, _ => []
  | fuel + 1, items =>
    match items with
    | [] => []
    | item :: rest =>
        let tail := extAdaptiveItems fuel rest
        match item with
        | .obj kvs =>
            let t₀ := extAdaptiveListFields fuel (.obj kvs)
                ["text", "content", "value", "data"] none
            let t :=
              if !optTruthy t₀ &&
                  (Json.getD (.obj kvs) "type" .null).beq (.str "text") then
                extAdaptive fuel (.obj kvs)
              else t₀
            match t with
            | some s => if s != "" then s :: tail else tail
            | none => tail
        | .str s => s :: tail
        | other => pyStr other :: tail

/-- The field loop over a list item (adaptive.py lines 213-218): `text`
keeps the last extraction result; a truthy result breaks the loop. -/
def extAdaptiveListFields : Nat → Json → List String → Option String → Option String
  | 0, _, _, cur => cur
  | fuel + 1, item, fields, cur =>
    match fields with
    | [] => cur
    | f :: rest =>
        if item.hasKey f then
          let t := extAdaptive fuel (item.getD f .null)
          if optTruthy t then t else extAdaptiveListFields fuel item rest t
        else extAdaptiveListFields fuel item rest cur

/-- The field loop of the dict branch (adaptive.py lines 236-240): a
truthy extraction returns immediately, otherwise the search continues and
the loop falls through. -/
def extAdaptiveDictFields : Nat → Json → List String → Option String
  | 0, _, _ => none
  | fuel + 1, content, fields =>
    match fields with
    | [] => none
    | f :: rest =>
        if content.hasKey f then
          let t := extAdaptive fuel (content.getD f .null)
          if optTruthy t then t else extAdaptiveDictFields fuel content rest
        else extAdaptiveDictFields fuel content rest
end

/-- Fuel amply covering every recursion path of the extractors on `c`
(each Python-level call steps through at most three of the fuelled
functions and descends into a strict subterm). -/
def extractFuel (c : Json) : Nat := 8 * c.size + 8

/-- `AdaptiveParser._extract_text_from_content` as called (depth-free). -/
def extract_text_from_content (c : Json) : Option String :=
  extAdaptive (extractFuel c) c

end AdaptiveParser

/-- `MAX_RECURSION_DEPTH` (constants.py line 18). -/
def MAX_RECURSION_DEPTH : Nat := 20

namespace BaseParser

mutual
/-- `BaseParser._extract_text_from_content` (base.py lines 152-217): the
depth-bounded variant.  `depth > MAX_RECURSION_DEPTH` yields the sentinel
before anything else is inspected; every recursive call passes
`depth + 1`.  Fuel as in the adaptive variant. -/
def extBase : Nat → Json → Nat → Option String
  | 0, _, _ => none
  | fuel + 1, content, depth =>
    if depth > MAX_RECURSION_DEPTH then some "[Content too deeply nested]"
    else
      match content with
      | .null => none
      | .str s => some s
      | .num n => some (toString n)
      | .bool b => some (if b then "True" else "False")
      | .arr items =>
          let texts := extBaseItems fuel items depth
          if texts.isEmpty then none else some (String.intercalate "\n" texts)
      | .obj kvs =>
          match extBaseDictFields fuel (.obj kvs)
              ["text", "content", "value", "body", "message"] depth with
          | some t => some t
          | none =>
              if (Json.getD (.obj kvs) "type" .null).beq (.str "text") then
                if (Json.obj kvs).hasKey "text" then
                  extBase fuel ((Json.obj kvs).getD "text" .null) (depth + 1)
                else if (Json.obj kvs).hasKey "content" then
                  extBase fuel ((Json.obj kvs).getD "content" .null) (depth + 1)
                else some (jsonDumps (.obj kvs))
              else some (jsonDumps (.obj kvs))
termination_by structural fuel => fuel

def extBaseItems : Nat → List Json → Nat → List String
  | 0, _, _ => []
  | fuel + 1, items, depth =>
    match items with
    | [] => []
    | item :: rest =>
        let tail := extBaseItems fuel rest depth
        match item with
        | .obj kvs =>
            let t₀ := extBaseListFields fuel (.obj kvs)
                ["text", "content", "value", "data"] none depth
            let t :=
              if !optTruthy t₀ &&
                  (Json.getD (.obj kvs) "type" .null).beq (.str "text") then
                extBase fuel (.obj kvs) (depth + 1)
              else t₀
            match t with
            | some s => if s != "" then s :: tail else tail
            | none => tail
        | .str s => s :: tail
        | other => pyStr other :: tail

def extBaseListFields : Nat → Json → List String → Option String → Nat → Option String
  | 0, _, _, cur, _ => cur
  | fuel + 1, item, fields, cur, depth =>
    match fields with
    | [] => cur
    | f :: rest =>
        if item.hasKey f then
          let t := extBase fuel (item.getD f .null) (depth + 1)
          if optTruthy t then t else extBaseListFields fuel item rest t depth
        else extBaseListFields fuel item rest cur depth

def extBaseDictFields : Nat → Json → List String → Nat → Option String
  | 0, _, _, _ => none
  | fuel + 1, content, fields, depth =>
    match fields with
    | [] => none
    | f :: rest =>
        if content.hasKey f then
          let t := extBase fuel (content.getD f .null) (depth + 1)
          if optTruthy t then t else extBaseDictFields fuel content rest depth
        else extBaseDictFields fuel content rest depth
end

/-- `BaseParser._extract_text_from_content` as called (depth starts 0). -/
def extract_text_from_content (c : Json) : Option String :=
  extBase (AdaptiveParser.extractFuel c) c 0

end BaseParser


/-- The concrete deeply nested content of
`tests/test_security.py::test_content_extraction_recursion_limit`:
`content = {"text": "base"}` wrapped in thirty `{"content": ...}` layers. -/
def nestContent : Nat → Json
  | 0 => .obj [("text", .str "base")]
  | n + 1 => .obj [("content", nestContent n)]

/-- `ShowOptions` of claudelog.py (lines 41-68): one boolean per entry of
the `OPTIONS` table, in table order, plus the `all` meta-flag. -/
structure ShowOptions where
  user : Bool
  assistant : Bool
  summaries : Bool
  hooks : Bool
  metadata : Bool
  commands : Bool
  system : Bool
  tool_details : Bool
  tools : Bool
  errors : Bool
  request_ids : Bool
  flow : Bool
  unfiltered : Bool
  diagnostics : Bool
  paths : Bool
  levels : Bool
  sidechains : Bool
  user_types : Bool
  all : Bool
deriving DecidableEq

namespace ShowOptions

/-- All options off (`__init__` before defaults are applied, and the
effect of the `A` reset character). -/
def allOff : ShowOptions :=
  ⟨false, false, false, false, false, false, false, false, false, false,
   false, false, false, false, false, false, false, false, false⟩

/-- `DEFAULT_ENABLED = ['user', 'assistant', 'tools']` applied to the
all-off state (claudelog.py lines 67-68, 76-79 and 145-147). -/
def defaultsOn : ShowOptions :=
  { allOff with user := true, assistant := true, tools := true }

/-- One character step of `parse_options_internal` (claudelog.py lines
149-166): `A` clears everything, `a` sets every attribute except `all`
itself, any other character is matched case-insensitively against the
`OPTIONS` table (lowercase enables, uppercase disables) and is ignored
when no entry matches. -/
def setFlagChar (o : ShowOptions) (c : Char) : ShowOptions :=
  if c = 'A' then allOff
  else if c = 'a' then
    { user := true, assistant := true, summaries := true, hooks := true,
      metadata := true, commands := true, system := true, tool_details := true,
      tools := true, errors := true, request_ids := true, flow := true,
      unfiltered := true, diagnostics := true, paths := true, levels := true,
      sidechains := true, user_types := true, all := o.all }
  else
    let v := !c.isUpper
    if c.toLower = 'q' then { o with user := v }
    else if c.toLower = 'w' then { o with assistant := v }
    else if c.toLower = 's' then { o with summaries := v }
    else if c.toLower = 'h' then { o with hooks := v }
    else if c.toLower = 'm' then { o with metadata := v }
    else if c.toLower = 'c' then { o with commands := v }
    else if c.toLower = 'y' then { o with system := v }
    else if c.toLower = 't' then { o with tool_details := v }
    else if c.toLower = 'o' then { o with tools := v }
    else if c.toLower = 'e' then { o with errors := v }
    else if c.toLower = 'r' then { o with request_ids := v }
    else if c.toLower = 'f' then { o with flow := v }
    else if c.toLower = 'u' then { o with unfiltered := v }
    else if c.toLower = 'd' then { o with diagnostics := v }
    else if c.toLower = 'p' then { o with paths := v }
    else if c.toLower = 'l' then { o with levels := v }
    else if c.toLower = 'k' then { o with sidechains := v }
    else if c.toLower = 'v' then { o with user_types := v }
    else o

/-- `ShowOptions.parse_options_internal` (claudelog.py lines 143-166):
start from the defaults, then process each character left to right. -/
def parse_options_internal (optionsString : String) : ShowOptions :=
  optionsString.toList.foldl setFlagChar defaultsOn

/-- `ShowOptions.__init__` (claudelog.py lines 70-82) for strings without
`?`: the empty string keeps the defaults, anything else is parsed by
`parse_options_internal` (the `?` status-report path calls `sys.exit` and
never yields a configuration, so it is outside this model). -/
def ofString (optionsString : String) : ShowOptions :=
  if optionsString = "" then defaultsOn
  else parse_options_internal optionsString

/-- `ShowOptions.should_truncate` (claudelog.py lines 168-174).  Note the
comparison is against the literal category `'tool'`. -/
def should_truncate (o : ShowOptions) (textType : String) : Bool :=
  if o.unfiltered then false
  else if textType = "tool" && o.tool_details then false
  else true

/-- A truncation cap: `float('inf')` or a finite character count. -/
inductive MaxLen where
  | inf
  | fin (n : Nat)
deriving DecidableEq

/-- `ShowOptions.get_max_length` (claudelog.py lines 176-188). -/
def get_max_length (o : ShowOptions) (textType : String) : MaxLen :=
  if !o.should_truncate textType then .inf
  else if textType = "tool_param" then .fin 200
  else if textType = "tool_result" then .fin 500
  else if textType = "default" then .fin 500
  else if textType = "error" then .fin (if o.errors then 1000 else 500)
  else .fin 500

end ShowOptions

/-- `truncate_text` (formatters.py lines 10-24; identical in claudelog.py
lines 256-270).  The `force_truncate` parameter is dropped: no caller in
the sources passes it, and even when set an infinite cap returns the text
unchanged (`len(text) > float('inf')` is false). -/
def truncate_text (text : String) (maxLength : ShowOptions.MaxLen) : String :=
  match maxLength with
  | .inf => text
  | .fin n => if strLen text > n then strTake text n ++ "..." else text

/-- The whitespace set of Python `str.strip()` (ASCII portion). -/
def isPySpace (c : Char) : Bool :=
  c = ' ' || c = '\t' || c = '\n' || c = '\r' || c = '\x0b' || c = '\x0c'

/-- Python `s.strip()`. -/
def pyStrip (s : String) : String :=
  ⟨((s.toList.dropWhile isPySpace).reverse.dropWhile isPySpace).reverse⟩

/-- Python `s.lower()` (ASCII case folding suffices for the sources). -/
def pyLower (s : String) : String := ⟨s.toList.map Char.toLower⟩

/-- `needle in hay` on character lists. -/
def listSub (n : List Char) : List Char → Bool
  | [] => n.isPrefixOf []
  | c :: t => n.isPrefixOf (c :: t) || listSub n t

/-- Python `needle in hay` on strings. -/
def subStrOf (needle hay : String) : Bool := listSub needle.toList hay.toList

/-- Scan for the first `>` after a `<`; `some remainder` when the regex
`<[^>]+>` matches here (at least one character before the `>`). -/
def afterGt : List Char → Option (List Char)
  | [] => none
  | '>' :: tail => some tail
  | _ :: tail => afterGt tail

def spanToGt : List Char → Option (List Char)
  | [] => none
  | '>' :: _ => none
  | _ :: rest => afterGt rest

def stripTagsAux : Nat → List Char → List Char
  | 0, _ => []
  | _ + 1, [] => []
  | fuel + 1, '<' :: rest =>
      match spanToGt rest with
      | some remainder => stripTagsAux fuel remainder
      | none => '<' :: stripTagsAux fuel rest
  | fuel + 1, c :: rest => c :: stripTagsAux fuel rest

/-- `re.sub(r'<[^>]+>', '', text)`: delete every XML-like tag
(non-overlapping, left to right, exactly the matches of the pattern).
The fuel only totalises the jump past a matched tag; every step consumes
at least one character, so `length + 1` always suffices. -/
def stripTags (s : String) : String :=
  ⟨stripTagsAux (s.toList.length + 1) s.toList⟩

/-- Match `[0-9;]*m` after a `[` (the tail of `re.sub(r'\[[\d;]*m', ...)`). -/
def ansiMatch : List Char → Option (List Char)
  | [] => none
  | c :: rest =>
      if c = 'm' then some rest
      else if c.isDigit || c = ';' then ansiMatch rest
      else none

def stripAnsiAux : Nat → List Char → List Char
  | 0, _ => []
  | _ + 1, [] => []
  | fuel + 1, '[' :: rest =>
      match ansiMatch rest with
      | some remainder => stripAnsiAux fuel remainder
      | none => '[' :: stripAnsiAux fuel rest
  | fuel + 1, c :: rest => c :: stripAnsiAux fuel rest

/-- `re.sub(r'\[[\d;]*m', '', content)`: delete ANSI-like codes (fuel as
in `stripTags`). -/
def stripAnsiLike (s : String) : String :=
  ⟨stripAnsiAux (s.toList.length + 1) s.toList⟩

/-- The color-code table consumed by the formatter.  The concrete escape
strings are theme state set once at startup (themes.py is loaded as
process-wide configuration), so the formatter is parameterised over them. -/
structure Colors where
  RESET : String
  BOLD : String
  DIM : String
  USER : String
  ASSISTANT : String
  SYSTEM : String
  ERROR : String
  TOOL_NAME : String
  TOOL_PARAM : String
  TOOL_OUTPUT : String
  TIMESTAMP : String
  SEPARATOR : String
  METADATA : String

/-- Ambient collaborators of the formatter: the theme colors and the
timestamp renderer `datetime.fromisoformat(ts.replace('Z', '+00:00'))
.strftime('%H:%M:%S')` (stdlib; `none` models a parse exception, which
the source swallows). -/
structure Env where
  colors : Colors
  fmtTime : String → Option String

/-- `extract_message_text` (formatters.py lines 27-36): delegates to the
adaptive parser's depth-free extraction. -/
def extract_message_text (c : Json) : Option String :=
  AdaptiveParser.extract_text_from_content c

/-- `entry['x'][:8]`: Python slicing raises `TypeError` on the `None` (or
other non-sequence) values the normalizer stores. -/
def pySlice8 : Json → Except String String
  | .str s => .ok (strTake s 8)
  | _ => .error "TypeError"

/-- One content item of `format_tool_use` (formatters.py lines 48-65):
`type == 'tool_use'` dict items yield the tool line, the optional ID line
and one line per input parameter; `tool_input.items()` raises
`AttributeError` when a truthy non-dict slips into `input`. -/
def toolUseItemLines (env : Env) (opts : ShowOptions) (item : Json) :
    Except String (List String) := do
  if item.isDict && (item.getD "type" .null).beq (.str "tool_use") then
    let toolName := item.getD "name" (.str "Unknown Tool")
    let toolId := item.getD "id" (.str "")
    let toolInput := item.getD "input" (.obj [])
    let nameLine := "\n" ++ env.colors.TOOL_NAME ++ "🔧 Tool: " ++ pyStr toolName ++
      env.colors.RESET
    let idLines :=
      if opts.tool_details && toolId.truthy then
        ["   " ++ env.colors.METADATA ++ "ID: " ++ pyStr toolId ++ env.colors.RESET]
      else []
    let paramLines ←
      if toolInput.truthy then
        match toolInput with
        | .obj kvs =>
            let maxLen := opts.get_max_length "tool_param"
            pure (kvs.map fun kv =>
              "   " ++ env.colors.TOOL_PARAM ++ kv.1 ++ ": " ++
                truncate_text (pyStr kv.2) maxLen ++ env.colors.RESET)
        | _ => throw "AttributeError"
      else pure []
    pure ([nameLine] ++ idLines ++ paramLines)
  else pure []

/-- `format_tool_use` (formatters.py lines 39-67). -/
def format_tool_use (env : Env) (opts : ShowOptions) (entry : Json) :
    Except String (Option String) := do
  let message := entry.getD "message" (.obj [])
  if message.isDict then
    match message.getD "content" (.arr []) with
    | .arr items =>
        let lineLists ← items.mapM (toolUseItemLines env opts)
        let output := lineLists.flatten
        pure (if output.isEmpty then none else some (String.intercalate "\n" output))
    | _ => pure none
  else pure none

/-- `format_tool_result` (formatters.py lines 70-95). -/
def format_tool_result (env : Env) (opts : ShowOptions) (entry : Json) :
    Option String :=
  let toolResult := entry.getD "toolUseResult" .null
  if toolResult.truthy then
    let maxLen := opts.get_max_length "tool_result"
    match toolResult with
    | .str s =>
        let result := pyStrip s
        if strStartsWith result "Error:" then
          let errorMax := opts.get_max_length "error"
          some (env.colors.ERROR ++ "   ❌ " ++ truncate_text result errorMax ++
            env.colors.RESET)
        else
          some (env.colors.TOOL_OUTPUT ++ "   ✓ Result: " ++
            truncate_text result maxLen ++ env.colors.RESET)
    | .arr items =>
        let results := items.filterMap fun item =>
          if item.isDict && item.hasKey "content" then
            match item.get "content" with
            | some (.str c) =>
                some (env.colors.TOOL_OUTPUT ++ "   ✓ " ++ truncate_text c maxLen ++
                  env.colors.RESET)
            | _ => none
          else none
        if results.isEmpty then none else some (String.intercalate "\n" results)
    | _ => none
  else none

/-- `format_conversation_entry` (formatters.py lines 98-269), in
`Except String` because metadata slicing and the system branch can raise
(the watcher catches those exception classes). -/
def format_conversation_entry (env : Env) (opts : ShowOptions) (entry : Json)
    (showTimestamp : Bool) : Except String (Option String) := do
  let entryType := entry.getD "type" (.str "unknown")
  if entryType.beq (.str "summary") then
    if !opts.summaries then return none
    let summaryVal := entry.getD "summary" (.str "N/A")
    let headLine := "\n" ++ env.colors.SEPARATOR ++ "📝 Summary: " ++ pyStr summaryVal ++
      env.colors.RESET
    let sessLines :=
      if opts.metadata && entry.hasKey "leafUuid" then
        ["   " ++ env.colors.METADATA ++ "Session: " ++ pyStr (entry.getD "leafUuid" .null) ++
          env.colors.RESET]
      else []
    return some (String.intercalate "\n" ([headLine] ++ sessLines))
  if (entry.getD "isMeta" (.bool false)).truthy && !opts.metadata then return none
  let timestampStr :=
    if showTimestamp && entry.hasKey "timestamp" then
      match entry.get "timestamp" with
      | some (.str ts) =>
          match env.fmtTime ts with
          | some t => env.colors.TIMESTAMP ++ "[" ++ t ++ "] " ++ env.colors.RESET
          | none => ""
      | _ => ""
    else ""
  let mut metadataLines : List String := []
  if opts.metadata then
    let mut metaItems : List String := []
    if entry.hasKey "uuid" then
      let u ← pySlice8 (entry.getD "uuid" .null)
      metaItems := metaItems ++ ["uuid:" ++ u]
    if entry.hasKey "sessionId" then
      let u ← pySlice8 (entry.getD "sessionId" .null)
      metaItems := metaItems ++ ["session:" ++ u]
    if entry.hasKey "version" then
      metaItems := metaItems ++ ["v" ++ pyStr (entry.getD "version" .null)]
    if entry.hasKey "gitBranch" then
      metaItems := metaItems ++ ["git:" ++ pyStr (entry.getD "gitBranch" .null)]
    if !metaItems.isEmpty then
      metadataLines := metadataLines ++
        [env.colors.METADATA ++ "[" ++ String.intercalate " | " metaItems ++ "]" ++
          env.colors.RESET]
  if opts.request_ids && entry.hasKey "requestId" then
    metadataLines := metadataLines ++
      [env.colors.METADATA ++ "Request: " ++ pyStr (entry.getD "requestId" .null) ++
        env.colors.RESET]
  if opts.flow && entry.hasKey "parentUuid" && (entry.getD "parentUuid" .null).truthy then
    let pid ← pySlice8 (entry.getD "parentUuid" .null)
    metadataLines := metadataLines ++
      [env.colors.METADATA ++ "Parent: " ++ pid ++ "..." ++ env.colors.RESET]
  if opts.paths && entry.hasKey "cwd" then
    metadataLines := metadataLines ++
      [env.colors.METADATA ++ "Path: " ++ pyStr (entry.getD "cwd" .null) ++ env.colors.RESET]
  if opts.user_types && entry.hasKey "userType" then
    metadataLines := metadataLines ++
      [env.colors.METADATA ++ "UserType: " ++ pyStr (entry.getD "userType" .null) ++
        env.colors.RESET]
  if opts.levels && entry.hasKey "level" then
    metadataLines := metadataLines ++
      [env.colors.METADATA ++ "Level: " ++ pyStr (entry.getD "level" .null) ++
        env.colors.RESET]
  if entry.hasKey "isSidechain" && (entry.getD "isSidechain" .null).truthy then
    if !opts.sidechains then return none
    metadataLines := metadataLines ++
      [env.colors.METADATA ++ "[SIDECHAIN]" ++ env.colors.RESET]
  let mut output : List String := []
  if entryType.beq (.str "user") then
    let mut userShown := false
    if opts.user then
      let message := entry.getD "message" (.obj [])
      if message.isDict then
        let content := message.getD "content" (.str "")
        let text := extract_message_text content
        let isCommand := optTruthy text &&
          (strStartsWith (text.getD "") "<command-" ||
            strStartsWith (text.getD "") "<local-command-")
        if isCommand && !opts.commands then
          pure ()
        else if optTruthy text then
          let text₁ :=
            if !opts.commands then pyStrip (stripTags (text.getD "")) else text.getD ""
          if text₁ ≠ "" then
            if !metadataLines.isEmpty then output := output ++ metadataLines
            output := output ++
              ["\n" ++ timestampStr ++ env.colors.USER ++ env.colors.BOLD ++ "User:" ++
                env.colors.RESET ++ " " ++ env.colors.USER ++ text₁ ++ env.colors.RESET]
            userShown := true
    if opts.tools then
      match format_tool_result env opts entry with
      | some tr =>
          if tr ≠ "" then
            if !userShown && !metadataLines.isEmpty then output := output ++ metadataLines
            output := output ++ [tr]
      | none => pure ()
    if output.isEmpty then return none
  else if entryType.beq (.str "assistant") then
    let message := entry.getD "message" (.obj [])
    let mut assistantShown := false
    if opts.assistant && message.isDict then
      let content := message.getD "content" (.str "")
      let text := extract_message_text content
      if optTruthy text then
        if !metadataLines.isEmpty then output := output ++ metadataLines
        let maxLen := opts.get_max_length "default"
        let text₁ := truncate_text (text.getD "") maxLen
        output := output ++
          ["\n" ++ timestampStr ++ env.colors.ASSISTANT ++ env.colors.BOLD ++ "Claude:" ++
            env.colors.RESET ++ " " ++ env.colors.ASSISTANT ++ text₁ ++ env.colors.RESET]
        assistantShown := true
    if opts.tools then
      let tu ← format_tool_use env opts entry
      match tu with
      | some t =>
          if t ≠ "" then
            if !assistantShown && !metadataLines.isEmpty then output := output ++ metadataLines
            output := output ++ [t]
      | none => pure ()
    if output.isEmpty then return none
  else if entryType.beq (.str "system") then
    let contentJ := entry.getD "content" (.str "")
    let content ←
      match contentJ with
      | .str c => pure c
      | _ => throw "AttributeError"
    let isHook := subStrOf "hook" (pyLower content) || subStrOf "PreToolUse" content ||
      subStrOf "PostToolUse" content
    let shouldShow :=
      if opts.system then true
      else if isHook && opts.hooks then true
      else if content ≠ "" && !strStartsWith content "[1m" && !isHook then
        subStrOf "Error" content || !subStrOf "completed successfully" content
      else false
    if shouldShow && content ≠ "" then
      if !metadataLines.isEmpty then output := output ++ metadataLines
      let content₁ := stripAnsiLike content
      output := output ++
        ["\n" ++ timestampStr ++ env.colors.SYSTEM ++ "System: " ++ content₁ ++
          env.colors.RESET]
  pure (if output.isEmpty then none else some (String.intercalate "\n" output))

/-- The fate of one new (unseen, non-empty) stripped line inside the
watcher loop (watcher.py lines 100-122): `json.loads` failures and the
caught parser/formatter exception classes emit nothing; a falsy formatted
result is not printed. -/
def render_line (env : Env) (opts : ShowOptions) (decode : String → Option Json)
    (showTimestamp : Bool) (t : String) : Option String :=
  match decode t with
  | none => none
  | some raw =>
      match format_conversation_entry env opts (AdaptiveParser.parse_entry raw) showTimestamp with
      | .error _ => none
      | .ok none => none
      | .ok (some s) => if s ≠ "" then some s else none

/-- The per-tick line loop of `watch_session_file` (watcher.py lines
86-123): strip each line, skip blanks and lines whose fingerprint (the
stripped raw text) is in the seen-set, otherwise record the fingerprint
and emit the rendered output (when any), in file order.  Returns the
emitted outputs and the final seen-set. -/
def watch_tick (env : Env) (opts : ShowOptions) (decode : String → Option Json)
    (showTimestamp : Bool) : List String → List String → List String × List String
  | seen, [] => ([], seen)
  | seen, line :: rest =>
      let t := pyStrip line
      if t = "" then watch_tick env opts decode showTimestamp seen rest
      else if t ∈ seen then watch_tick env opts decode showTimestamp seen rest
      else
        let emitted := render_line env opts decode showTimestamp t
        let step := watch_tick env opts decode showTimestamp (t :: seen) rest
        match emitted with
        | some s => (s :: step.1, step.2)
        | none => step

/-- One full poll iteration of `watch_session_file` (watcher.py lines
82-124): the file is re-read (from the start) only when its size grew;
otherwise nothing is read and nothing is emitted. -/
def watch_poll (env : Env) (opts : ShowOptions) (decode : String → Option Json)
    (showTimestamp : Bool) (lastSize currentSize : Nat) (seen : List String)
    (lines : List String) : List String × List String × Nat :=
  if currentSize > lastSize then
    let step := watch_tick env opts decode showTimestamp seen lines
    (step.1, step.2, currentSize)
  else ([], seen, lastSize)

/-- `MAX_FILE_SIZE` (constants.py lines 6-9): 100 MB. -/
def MAX_FILE_SIZE : Nat := 100 * 1024 * 1024

/-- `Path.parents` of a path given as components below the filesystem
root: every strict ancestor, from the root downwards. -/
def pathParents (p : List String) : List (List String) :=
  (List.range p.length).map fun n => p.take n

/-- The line-processing block of `parse_session_file` (session.py lines
123-144): strip, skip blanks, `json.loads` (a failure is reported and the
line skipped) then normalize via the adaptive parser.  The fallback that
tags an entry with `_parse_error` is unreachable here because the
modelled `parse_entry` is total, as it is in Python on `json.loads`
output. -/
def processSessionLines (lines : List String) (decode : String → Option Json) :
    List Json :=
  lines.filterMap fun l =>
    let t := pyStrip l
    if t = "" then none else (decode t).map AdaptiveParser.parse_entry

/-- `parse_session_file` (session.py lines 95-148) over a resolved path
(`filepath.resolve()` output, so symlinks are already followed), the
sessions root `Path.home()/CLAUDE_PROJECTS_DIR`, the `stat` result
(`none` models `OSError`, which the source ignores) and the file's lines.
The second component is the trace of lines read: the guards return before
the file is opened, leaving it empty. -/
def parse_session_file (root path : List String) (statSize : Option Nat)
    (lines : List String) (decode : String → Option Json) :
    List Json × List String :=
  if !(root ∈ pathParents path || path.dropLast = root) then ([], [])
  else
    match statSize with
    | some size =>
        if size > MAX_FILE_SIZE then ([], [])
        else (processSessionLines lines decode, lines)
    | none => (processSessionLines lines decode, lines)

namespace AdaptiveParser

/-- The `tool_uses` list built by `AdaptiveParser.extract_tool_info`
(adaptive.py lines 254-273): `(name, id, input)` per `tool_use`-typed
content item, each resolved through the tool patterns. -/
def extract_tool_info_uses (entry : Json) : List (Json × Json × Json) :=
  match entry.get "message" with
  | some (.obj ms) =>
      match (Json.obj ms).get "content" with
      | some (.arr items) =>
          items.filterMap fun item =>
            if item.isDict then
              match item.getD "type" .null with
              | .str t =>
                  if t ∈ toolUseTypes then
                    some ((find_field item toolNameFields).getD .null,
                          (find_field item toolIdFields).getD .null,
                          (find_field item toolInputFields).getD .null)
                  else none
              | _ => none
            else none
      | _ => []
  | _ => []

/-- `AdaptiveParser.extract_tool_info` (adaptive.py lines 254-278): the
per-entry tool uses plus the aliased tool result. -/
def extract_tool_info (entry : Json) : List (Json × Json × Json) × Option Json :=
  (extract_tool_info_uses entry, find_field entry toolResultAliases)

end AdaptiveParser

namespace ToolTracker

/-- Modelled from the spec: the `ToolInvocationTracker` storage operation
(`claudeconvo/tool_tracker.py`, not among the sources; spec §4.3
`recordInvocation`).  Scans a normalized entry's message content for
tool-use items (using the in-source `extract_tool_info` scanner) and
stores `id -> (name, input)`; a re-recorded id overwrites (newest entry
shadows older ones in the association list). -/
def track_tool_use (table : List (Json × Json × Json)) (entry : Json) :
    List (Json × Json × Json) :=
  (AdaptiveParser.extract_tool_info_uses entry).foldl
    (fun tb use => (use.2.1, use.1, use.2.2) :: tb) table

/-- Modelled from the spec: the id carried by the first tool-result
content item of an entry (spec §4.3 `resolveResult`'s input; the test
suite's result entries carry it as `tool_use_id` on a
`type == 'tool_result'` item). -/
def first_tool_result_id (entry : Json) : Option Json :=
  match entry.get "message" with
  | some (.obj ms) =>
      match (Json.obj ms).get "content" with
      | some (.arr items) =>
          items.findSome? fun item =>
            if item.isDict && (item.getD "type" .null).beq (.str "tool_result") then
              item.get "tool_use_id"
            else none
      | _ => none
  | _ => none

/-- Modelled from the spec: table lookup by id (spec §4.3
`get_tool_info`); `none` for a never-recorded id, never an exception. -/
def get_tool_info (table : List (Json × Json × Json)) (id : Json) :
    Option (Json × Json) :=
  (table.lookup id)

/-- Modelled from the spec: `resolveResult(entry)` — the recorded
invocation referenced by the entry's tool-result content item, or `none`
when the id was never seen. -/
def resolve_result (table : List (Json × Json × Json)) (entry : Json) :
    Option (Json × Json) :=
  (first_tool_result_id entry).bind (get_tool_info table)

end ToolTracker

/-! ### Concrete fixtures used by counterexamples and witnesses -/

/-- A color table with empty escape codes (the `mono` theme). -/
def monoColors : Colors := ⟨"", "", "", "", "", "", "", "", "", "", "", "", ""⟩

/-- A concrete environment: mono colors, timestamp parsing always fails
(the formatter then uses an empty timestamp prefix, as the source does). -/
def monoEnv : Env := ⟨monoColors, fun _ => none⟩

/-- The raw entry `\x7b"type": "user", "message": \x7b"content": "Hello"\x7d\x7d`. -/
def helloEntry : Json :=
  .obj [("type", .str "user"), ("message", .obj [("content", .str "Hello")])]

/-- The raw entry `\x7b"type": "progress"\x7d`: well-formed JSON whose
normalized form renders to nothing under the default options. -/
def progressEntry : Json := .obj [("type", .str "progress")]

/-- The log line carrying `progressEntry`. -/
def progressLine : String := "\x7b\"type\": \"progress\"\x7d"

/-- The log line carrying `helloEntry`. -/
def helloLine : String := "\x7b\"type\": \"user\", \"message\": \x7b\"content\": \"Hello\"\x7d\x7d"

/-- A concrete `json.loads`: the two fixture lines decode to their
entries, anything else is malformed. -/
def fixtureDecode : String → Option Json := fun t =>
  if t = progressLine then some progressEntry
  else if t = helloLine then some helloEntry
  else none

/-- The assistant entry recording the `Bash` invocation `tool-123`
(tests/test_claudelog.py, `test_track_tool_use`). -/
def invEntry : Json :=
  .obj [("type", .str "assistant"),
    ("message", .obj [("content", .arr [.obj
      [("type", .str "tool_use"), ("id", .str "tool-123"), ("name", .str "Bash"),
       ("input", .obj [("command", .str "ls -la")])]])])]

/-- A later user entry whose tool-result content references `tool-123`. -/
def resEntry : Json :=
  .obj [("type", .str "user"),
    ("message", .obj [("content", .arr [.obj
      [("type", .str "tool_result"), ("tool_use_id", .str "tool-123"),
       ("content", .str "ok")]])])]

/-- A result entry referencing the never-recorded id `tool-999`. -/
def unseenResEntry : Json :=
  .obj [("type", .str "user"),
    ("message", .obj [("content", .arr [.obj
      [("type", .str "tool_result"), ("tool_use_id", .str "tool-999"),
       ("content", .str "ok")]])])]

/-! ### Helper lemmas -/

theorem lookup_append_isSome {β} (k : String) (l₁ l₂ : List (String × β))
    (h : (List.lookup k l₁).isSome) :
    List.lookup k (l₁ ++ l₂) = List.lookup k l₁ := by
  induction l₁ with
  | nil => simp [List.lookup] at h
  | cons p t ih =>
      rcases p with ⟨a, b⟩
      cases hka : (k == a) with
      | true => simp [List.lookup, hka]
      | false =>
          simp only [List.lookup, hka] at h ⊢
          exact ih h

theorem lookup_append_isNone {β} (k : String) (l₁ l₂ : List (String × β))
    (h : List.lookup k l₁ = none) :
    List.lookup k (l₁ ++ l₂) = List.lookup k l₂ := by
  induction l₁ with
  | nil => rfl
  | cons p t ih =>
      rcases p with ⟨a, b⟩
      cases hka : (k == a) with
      | true => simp [List.lookup, hka] at h
      | false =>
          simp only [List.lookup, hka] at h ⊢
          exact ih h

theorem hasKeyList_eq_contains (L : List (String × Json)) (k : String) :
    AdaptiveParser.hasKeyList L k = (L.map Prod.fst).contains k := by
  induction L with
  | nil => rfl
  | cons p t ih =>
      rcases p with ⟨a, b⟩
      cases hka : (k == a) with
      | true =>
          simp [AdaptiveParser.hasKeyList, List.lookup, hka, List.contains_cons]
      | false =>
          simp only [AdaptiveParser.hasKeyList, List.lookup, hka, List.map_cons,
            List.contains_cons] at ih ⊢
          simp [hka, ih, AdaptiveParser.hasKeyList]

theorem strStartsWith_append_self (a b : String) : strStartsWith (a ++ b) a = true := by
  simp only [strStartsWith, String.toList]
  rw [String.data_append]
  exact List.isPrefixOf_iff_prefix.mpr (List.prefix_append _ _)

theorem unknown_key_starts_underscore (k : String) :
    strStartsWith ("_unknown_" ++ k) "_" = true := by
  simp only [strStartsWith, String.toList]
  rw [String.data_append]
  rfl

theorem beq_false_of_startsWith_ne (k u : String)
    (hk : strStartsWith k "_" = false) (hu : strStartsWith u "_" = true) :
    (k == u) = false := by
  by_contra h
  have : k = u := by
    have := eq_of_beq (a := k) (b := u) (by revert h; cases k == u <;> simp)
    exact this
  subst this
  rw [hk] at hu
  exact Bool.false_ne_true hu

theorem contains_append_single (l : List String) (u kk : String) (h : (kk == u) = false) :
    (l ++ [u]).contains kk = l.contains kk := by
  induction l with
  | nil =>
      simp only [List.nil_append, List.contains_cons, h, Bool.false_or]
  | cons a t ih => simp only [List.cons_append, List.contains_cons, ih]

/-- Characterization of the unknown-key loop: for any accumulator whose
non-underscore key membership coincides with the canonical output keys,
the loop appends exactly one `_unknown_`-prefixed pair per raw item whose
key neither starts with `_` nor collides with a canonical output key. -/
theorem unknownLoop_eq (items : List (String × Json)) :
    ∀ acc : List (String × Json),
      (∀ k, strStartsWith k "_" = false →
        AdaptiveParser.hasKeyList acc k = AdaptiveParser.canonicalOutputKeys.contains k) →
      AdaptiveParser.unknownLoop acc items =
        acc ++ (items.filter fun kv =>
          !strStartsWith kv.1 "_" && !AdaptiveParser.canonicalOutputKeys.contains kv.1).map
          fun kv => ("_unknown_" ++ kv.1, kv.2) := by
  induction items with
  | nil => intro acc _; simp [AdaptiveParser.unknownLoop]
  | cons kv rest ih =>
      intro acc hinv
      rcases kv with ⟨k, v⟩
      cases hks : strStartsWith k "_" with
      | true =>
          have hpred : (!strStartsWith k "_" &&
              !AdaptiveParser.canonicalOutputKeys.contains k) = false := by
            rw [hks]; rfl
          have hstep : AdaptiveParser.unknownLoop acc ((k, v) :: rest) =
              AdaptiveParser.unknownLoop acc rest := by
            simp [AdaptiveParser.unknownLoop, hks]
          have hfil : List.filter (fun kv =>
              !strStartsWith kv.1 "_" &&
                !AdaptiveParser.canonicalOutputKeys.contains kv.1) ((k, v) :: rest) =
              List.filter (fun kv => !strStartsWith kv.1 "_" &&
                !AdaptiveParser.canonicalOutputKeys.contains kv.1) rest := by
            rw [List.filter_cons]
            simp only [hpred, Bool.false_eq_true, if_false]
          rw [hstep, ih acc hinv, hfil]
      | false =>
          cases hc : AdaptiveParser.canonicalOutputKeys.contains k with
          | true =>
              have hmem : AdaptiveParser.hasKeyList acc k = true := by
                rw [hinv k hks]; exact hc
              have hpred : (!strStartsWith k "_" &&
                  !AdaptiveParser.canonicalOutputKeys.contains k) = false := by
                rw [hks, hc]; rfl
              have hstep : AdaptiveParser.unknownLoop acc ((k, v) :: rest) =
                  AdaptiveParser.unknownLoop acc rest := by
                simp [AdaptiveParser.unknownLoop, hks, hmem]
              have hfil : List.filter (fun kv =>
                  !strStartsWith kv.1 "_" &&
                    !AdaptiveParser.canonicalOutputKeys.contains kv.1) ((k, v) :: rest) =
                  List.filter (fun kv => !strStartsWith kv.1 "_" &&
                    !AdaptiveParser.canonicalOutputKeys.contains kv.1) rest := by
                rw [List.filter_cons]
                simp only [hpred, Bool.false_eq_true, if_false]
              rw [hstep, ih acc hinv, hfil]
          | false =>
              have hmem : AdaptiveParser.hasKeyList acc k = false := by
                rw [hinv k hks]; exact hc
              have hpred : (!strStartsWith k "_" &&
                  !AdaptiveParser.canonicalOutputKeys.contains k) = true := by
                rw [hks, hc]; rfl
              have hstep : AdaptiveParser.unknownLoop acc ((k, v) :: rest) =
                  AdaptiveParser.unknownLoop (acc ++ [("_unknown_" ++ k, v)]) rest := by
                simp [AdaptiveParser.unknownLoop, hks, hmem]
              have hinv2 : ∀ kk, strStartsWith kk "_" = false →
                  AdaptiveParser.hasKeyList (acc ++ [("_unknown_" ++ k, v)]) kk =
                    AdaptiveParser.canonicalOutputKeys.contains kk := by
                intro kk hkk
                rw [hasKeyList_eq_contains]
                have hne : (kk == "_unknown_" ++ k) = false :=
                  beq_false_of_startsWith_ne kk ("_unknown_" ++ k) hkk
                    (unknown_key_starts_underscore k)
                rw [← hinv kk hkk, hasKeyList_eq_contains]
                have h1 : List.map Prod.fst (acc ++ [("_unknown_" ++ k, v)]) =
                    List.map Prod.fst acc ++ ["_unknown_" ++ k] := by simp
                rw [h1, contains_append_single _ _ _ hne]
              have hfil : List.filter (fun kv =>
                  !strStartsWith kv.1 "_" &&
                    !AdaptiveParser.canonicalOutputKeys.contains kv.1) ((k, v) :: rest) =
                  (k, v) :: List.filter (fun kv => !strStartsWith kv.1 "_" &&
                    !AdaptiveParser.canonicalOutputKeys.contains kv.1) rest := by
                rw [List.filter_cons]
                simp only [hpred, if_true]
              rw [hstep, ih _ hinv2, hfil]
              simp [List.append_assoc]

/-- Non-underscore membership in the canonical pairs is membership in the
canonical output keys (the pair list's keys are exactly that list). -/
theorem canonicalPairs_inv (e : Json) (k : String) :
    AdaptiveParser.hasKeyList (AdaptiveParser.canonicalPairs e) k =
      AdaptiveParser.canonicalOutputKeys.contains k := by
  rw [hasKeyList_eq_contains]
  rfl

/-- Shape of `parse_entry` on a non-summary dict: the canonical pairs
followed by the `_unknown_` pairs. -/
theorem parse_entry_nonsummary (kvs : List (String × Json))
    (hs : AdaptiveParser.isSummaryEntry (.obj kvs) = false) :
    AdaptiveParser.parse_entry (.obj kvs) =
      .obj (AdaptiveParser.canonicalPairs (.obj kvs) ++
        (kvs.filter fun kv =>
          !strStartsWith kv.1 "_" && !AdaptiveParser.canonicalOutputKeys.contains kv.1).map
          fun kv => ("_unknown_" ++ kv.1, kv.2)) := by
  have hloop := unknownLoop_eq kvs (AdaptiveParser.canonicalPairs (.obj kvs))
    (fun k _ => canonicalPairs_inv (.obj kvs) k)
  simp [AdaptiveParser.parse_entry, hs, hloop]

/-! ### Claim theorems -/

/-- C1 (counterexample): the claim says the unknown-namespace keys are
exactly the raw keys matching none of the canonical fields' alias lists.
But the raw key `time` matches the timestamp alias list (it is consumed
to fill `timestamp`) and is nonetheless carried into the unknown
namespace, because the code's membership test is against the canonical
OUTPUT key names, not the alias lists; and the raw key `_hidden` matches
no alias list yet is excluded from the unknown namespace (the loop skips
keys starting with an underscore). -/
theorem C1_counterexample :
    "time" ∈ AdaptiveParser.timestampAliases ∧
    (AdaptiveParser.parse_entry (.obj [("time", .str "t")])).get "timestamp" =
      some (.str "t") ∧
    AdaptiveParser.unknownKeysOf
      (AdaptiveParser.parse_entry (.obj [("time", .str "t")])) = ["time"] ∧
    AdaptiveParser.unknownKeysOf
      (AdaptiveParser.parse_entry (.obj [("_hidden", .str "h")])) = [] :=
  ⟨by decide, rfl, rfl, rfl⟩

/-- C1 (amended): for every non-summary dict entry, the unknown-namespace
pairs of `parse_entry` are exactly the raw items whose key neither starts
with `_` nor equals one of the sixteen canonical output key names, in raw
order, each stored under `_unknown_` + its original name with its value
unmodified.  (Keys that merely match a non-primary alias, such as `time`,
are both consumed for their canonical field and duplicated here; keys
starting with `_` are omitted from the namespace, remaining only inside
`_raw`.) -/
theorem C1_unknown_namespace (kvs : List (String × Json))
    (hs : AdaptiveParser.isSummaryEntry (.obj kvs) = false) :
    AdaptiveParser.unknownPairsOf (AdaptiveParser.parse_entry (.obj kvs)) =
      (kvs.filter fun kv =>
        !strStartsWith kv.1 "_" && !AdaptiveParser.canonicalOutputKeys.contains kv.1).map
        fun kv => ("_unknown_" ++ kv.1, kv.2) := by
  rw [parse_entry_nonsummary kvs hs]
  show List.filter _ (AdaptiveParser.canonicalPairs (.obj kvs) ++ _) = _
  rw [List.filter_append]
  have hbase : List.filter (fun kv => strStartsWith kv.1 "_unknown_")
      (AdaptiveParser.canonicalPairs (.obj kvs)) = [] := rfl
  have hmap : List.filter (fun kv => strStartsWith kv.1 "_unknown_")
      ((kvs.filter fun kv =>
        !strStartsWith kv.1 "_" && !AdaptiveParser.canonicalOutputKeys.contains kv.1).map
        fun kv => ("_unknown_" ++ kv.1, kv.2)) =
      (kvs.filter fun kv =>
        !strStartsWith kv.1 "_" && !AdaptiveParser.canonicalOutputKeys.contains kv.1).map
        fun kv => ("_unknown_" ++ kv.1, kv.2) := by
    apply List.filter_eq_self.mpr
    intro p hp
    rcases List.mem_map.mp hp with ⟨kv, _, hkv⟩
    rw [← hkv]
    exact strStartsWith_append_self "_unknown_" kv.1
  rw [hbase, hmap, List.nil_append]

/-- C1 (witness): a concrete non-summary entry with one alias-matching
key, one genuinely unknown key and one canonical key. -/
theorem C1_unknown_namespace_witness :
    AdaptiveParser.isSummaryEntry
      (.obj [("time", .str "t"), ("customField", .num 5), ("type", .str "user")]) = false ∧
    AdaptiveParser.unknownPairsOf (AdaptiveParser.parse_entry
      (.obj [("time", .str "t"), ("customField", .num 5), ("type", .str "user")])) =
      [("_unknown_time", .str "t"), ("_unknown_customField", .num 5)] :=
  ⟨rfl, (C1_unknown_namespace
    [("time", .str "t"), ("customField", .num 5), ("type", .str "user")] rfl).trans rfl⟩

/-- C10: for every non-summary dict entry, the normalized result carries
the complete original entry, unmodified, under the `_raw` key (the
embedding is a pure function, so the input mapping itself is never
mutated); in particular every raw key excluded from the unknown namespace
remains recoverable through `_raw`. -/
theorem C10_raw_preserved (kvs : List (String × Json))
    (hs : AdaptiveParser.isSummaryEntry (.obj kvs) = false) :
    (AdaptiveParser.parse_entry (.obj kvs)).get "_raw" = some (.obj kvs) := by
  rw [parse_entry_nonsummary kvs hs]
  show List.lookup "_raw" (AdaptiveParser.canonicalPairs (.obj kvs) ++ _) = _
  rw [lookup_append_isSome _ _ _ (by rfl)]
  rfl

/-- C10 (witness): the `_raw` payload of a concrete normalized entry,
underscore-prefixed raw key included. -/
theorem C10_raw_preserved_witness :
    AdaptiveParser.isSummaryEntry (.obj [("type", .str "user"), ("_secret", .num 7)]) = false ∧
    (AdaptiveParser.parse_entry (.obj [("type", .str "user"), ("_secret", .num 7)])).get "_raw" =
      some (.obj [("type", .str "user"), ("_secret", .num 7)]) :=
  ⟨rfl, C10_raw_preserved [("type", .str "user"), ("_secret", .num 7)] rfl⟩

set_option maxRecDepth 20000 in
/-- C2: the claim says the text-extraction function used by the rendering
pipeline yields the sentinel on content nested beyond the configured
maximum.  The rendering pipeline (`formatters.extract_message_text`, also
the watcher) uses the adaptive parser's extractor, which takes no depth
argument at all: on the thirty-deep test fixture it happily recurses to
`"base"` and never produces the sentinel, while the depth-bounded
`BaseParser` variant the spec describes (same repository, base.py)
returns the sentinel on the same input; `tests/test_security.py` asserts
the sentinel for the adaptive parser, so the code contradicts its own
test suite. -/
theorem C2_depth_bound_missing :
    AdaptiveParser.extract_text_from_content (nestContent 30) = some "base" ∧
    AdaptiveParser.extract_text_from_content (nestContent 30) ≠
      some "[Content too deeply nested]" ∧
    BaseParser.extract_text_from_content (nestContent 30) =
      some "[Content too deeply nested]" ∧
    MAX_RECURSION_DEPTH = 20 :=
  ⟨by decide, by decide, by decide, rfl⟩

/-- C4: the option parser's truth table, field order `user, assistant,
summaries, hooks, metadata, commands, system, tool_details, tools,
errors, request_ids, flow, unfiltered, diagnostics, paths, levels,
sidechains, user_types, all`: `""` enables exactly the defaults
(user, assistant, tools); `"a"` enables every toggle; `"aH"` every toggle
except hooks; `"A"` none; `"Aqw"` exactly user and assistant; `"sm"` the
defaults plus summaries and metadata.  (The `all` field is the `a` table
entry itself, which the parser never sets.) -/
theorem C4_option_truth_table :
    ShowOptions.ofString "" =
      ⟨true, true, false, false, false, false, false, false, true, false,
       false, false, false, false, false, false, false, false, false⟩ ∧
    ShowOptions.ofString "a" =
      ⟨true, true, true, true, true, true, true, true, true, true,
       true, true, true, true, true, true, true, true, false⟩ ∧
    ShowOptions.ofString "aH" =
      ⟨true, true, true, false, true, true, true, true, true, true,
       true, true, true, true, true, true, true, true, false⟩ ∧
    ShowOptions.ofString "A" =
      ⟨false, false, false, false, false, false, false, false, false, false,
       false, false, false, false, false, false, false, false, false⟩ ∧
    ShowOptions.ofString "Aqw" =
      ⟨true, true, false, false, false, false, false, false, false, false,
       false, false, false, false, false, false, false, false, false⟩ ∧
    ShowOptions.ofString "sm" =
      ⟨true, true, true, false, true, false, false, false, true, false,
       false, false, false, false, false, false, false, false, false⟩ := by
  decide

/-- C6: the claim (and the code's own help text for `t`, plus the test
suite) says enabling `tool_details` lifts the tool caps.  It does not:
`should_truncate` compares the category against the literal `'tool'`,
but the formatter only ever asks for `'tool_param'` and `'tool_result'`,
so with `-s t` (tool_details on, unfiltered off) both tool categories
keep their finite caps of 200 and 500 characters; the `'tool'` category
that would be uncapped is never requested by any caller. -/
theorem C6_tool_detail_cap_dead :
    (ShowOptions.ofString "t").tool_details = true ∧
    (ShowOptions.ofString "t").unfiltered = false ∧
    ShowOptions.should_truncate (ShowOptions.ofString "t") "tool_param" = true ∧
    ShowOptions.get_max_length (ShowOptions.ofString "t") "tool_param" = .fin 200 ∧
    ShowOptions.get_max_length (ShowOptions.ofString "t") "tool_result" = .fin 500 ∧
    ShowOptions.should_truncate (ShowOptions.ofString "t") "tool" = false := by
  decide

/-- C8: option parsing is order sensitive, left-to-right last-write-wins:
`"aH"` yields every toggle except hooks, its permutation `"Ha"` yields
every toggle (the leading `H` disables hooks before `a` re-enables
everything), so `parse_options_internal` is not invariant under
permutation of its input characters. -/
theorem C8_order_sensitive :
    ShowOptions.parse_options_internal "aH" =
      ⟨true, true, true, false, true, true, true, true, true, true,
       true, true, true, true, true, true, true, true, false⟩ ∧
    ShowOptions.parse_options_internal "Ha" =
      ⟨true, true, true, true, true, true, true, true, true, true,
       true, true, true, true, true, true, true, true, false⟩ ∧
    "aH".toList.Perm "Ha".toList ∧
    ShowOptions.parse_options_internal "aH" ≠ ShowOptions.parse_options_internal "Ha" := by
  refine ⟨by decide, by decide, ?_, by decide⟩
  decide

/-- C5: spec-modelled tool correlation.  Recording an entry whose message
content carries one tool-use item stores its id; any later entry whose
tool-result content references that id resolves to exactly the stored
name and input; resolving against a table in which the id was never
recorded yields `none` (the model is total — nothing is thrown). -/
theorem C5_tool_correlation :
    (∀ (table : List (Json × Json × Json)) (entry res i n p : Json),
      AdaptiveParser.extract_tool_info_uses entry = [(n, i, p)] →
      ToolTracker.first_tool_result_id res = some i →
      ToolTracker.resolve_result (ToolTracker.track_tool_use table entry) res =
        some (n, p)) ∧
    (∀ (table : List (Json × Json × Json)) (res j : Json),
      ToolTracker.first_tool_result_id res = some j →
      ToolTracker.get_tool_info table j = none →
      ToolTracker.resolve_result table res = none) := by
  constructor
  · intro table entry res i n p hu hr
    have hii : (i == i) = true := Json.beq_refl i
    simp [ToolTracker.track_tool_use, hu, ToolTracker.resolve_result, hr,
      ToolTracker.get_tool_info, List.lookup, hii]
  · intro table res j hr hl
    simp [ToolTracker.resolve_result, hr, ToolTracker.get_tool_info] at hl ⊢
    exact hl

/-- C5 (witness): the test-suite scenario — a `Bash` invocation recorded
under `tool-123` is resolved exactly by a result entry referencing it;
the id `tool-999` was never recorded and resolves to nothing. -/
theorem C5_tool_correlation_witness :
    ToolTracker.resolve_result (ToolTracker.track_tool_use [] invEntry) resEntry =
      some (.str "Bash", .obj [("command", .str "ls -la")]) ∧
    ToolTracker.resolve_result [] unseenResEntry = none :=
  ⟨C5_tool_correlation.1 [] invEntry resEntry (.str "tool-123") (.str "Bash")
      (.obj [("command", .str "ls -la")]) rfl rfl,
    C5_tool_correlation.2 [] unseenResEntry (.str "tool-999") rfl rfl⟩

/-- C9: the file-level guards of `parse_session_file` are atomic and
precede any read: a resolved path not strictly below the session-storage
root, or a stat size above the 100 MB limit, yields an empty session
list with an empty read trace — no line of the file is touched. -/
theorem C9_file_guards (root path : List String) (statSize : Option Nat)
    (lines : List String) (decode : String → Option Json)
    (h : ¬ (root ∈ pathParents path ∨ path.dropLast = root) ∨
      ∃ n, statSize = some n ∧ n > MAX_FILE_SIZE) :
    parse_session_file root path statSize lines decode = ([], []) := by
  rcases h with h | ⟨n, hn, hsize⟩
  · have hA : root ∉ pathParents path := fun hh => h (Or.inl hh)
    have hB : ¬ path.dropLast = root := fun hh => h (Or.inr hh)
    simp [parse_session_file, hA, hB]
  · subst hn
    by_cases hp : (root ∈ pathParents path ∨ path.dropLast = root)
    · rcases hp with hp | hp <;> simp [parse_session_file, hp, hsize]
    · have hA : root ∉ pathParents path := fun hh => hp (Or.inl hh)
      have hB : ¬ path.dropLast = root := fun hh => hp (Or.inr hh)
      simp [parse_session_file, hA, hB]

/-- C9 (witness): `/etc/passwd` against the storage root
`/home/u/.claude/projects` (path guard), and an in-root file of
`MAX_FILE_SIZE + 1` bytes (size guard). -/
theorem C9_file_guards_witness :
    parse_session_file ["home", "u", ".claude", "projects"] ["etc", "passwd"]
      (some 10) ["x"] (fun _ => none) = ([], []) ∧
    parse_session_file ["home", "u", ".claude", "projects"]
      ["home", "u", ".claude", "projects", "proj", "s.jsonl"]
      (some (MAX_FILE_SIZE + 1)) ["x"] (fun _ => none) = ([], []) :=
  ⟨C9_file_guards _ _ _ _ _ (Or.inl (by decide)),
    C9_file_guards _ _ _ _ _ (Or.inr ⟨MAX_FILE_SIZE + 1, rfl, Nat.lt_succ_self _⟩)⟩

theorem watch_tick_all_seen (env : Env) (opts : ShowOptions)
    (decode : String → Option Json) (ts : Bool) (seen : List String) :
    ∀ lines : List String,
      (∀ l ∈ lines, pyStrip l = "" ∨ pyStrip l ∈ seen) →
      watch_tick env opts decode ts seen lines = ([], seen)
  | [], _ => rfl
  | l :: rest, h => by
      have hrest := fun x hx => h x (List.mem_cons_of_mem _ hx)
      rcases h l (List.mem_cons_self _ _) with hl | hl
      · simp [watch_tick, hl, watch_tick_all_seen env opts decode ts seen rest hrest]
      · by_cases he : pyStrip l = ""
        · simp [watch_tick, he, watch_tick_all_seen env opts decode ts seen rest hrest]
        · simp [watch_tick, he, hl, watch_tick_all_seen env opts decode ts seen rest hrest]

/-- C7: the watcher is idempotent across ticks.  Re-reading any list of
lines each of which is blank or already fingerprinted emits nothing and
leaves the seen-set unchanged (so any number of repeated re-reads emits
nothing); and a tick at which the file has not grown reads nothing and
emits nothing. -/
theorem C7_watch_idempotent :
    (∀ (env : Env) (opts : ShowOptions) (decode : String → Option Json) (ts : Bool)
      (seen lines : List String),
      (∀ l ∈ lines, pyStrip l = "" ∨ pyStrip l ∈ seen) →
      watch_tick env opts decode ts seen lines = ([], seen)) ∧
    (∀ (env : Env) (opts : ShowOptions) (decode : String → Option Json) (ts : Bool)
      (lastSize currentSize : Nat) (seen lines : List String),
      currentSize ≤ lastSize →
      watch_poll env opts decode ts lastSize currentSize seen lines = ([], seen, lastSize)) := by
  constructor
  · intro env opts decode ts seen lines h
    exact watch_tick_all_seen env opts decode ts seen lines h
  · intro env opts decode ts lastSize currentSize seen lines h
    have : ¬ currentSize > lastSize := by omega
    simp [watch_poll, this]

/-- C7 (witness): a full re-read of an already-processed file (one seen
line, one blank line) emits nothing, and an ungrown file is not read. -/
theorem C7_watch_idempotent_witness :
    watch_tick monoEnv (ShowOptions.ofString "") fixtureDecode false
      [helloLine] [helloLine, " "] = ([], [helloLine]) ∧
    watch_poll monoEnv (ShowOptions.ofString "") fixtureDecode false
      5 5 [helloLine] [helloLine] = ([], [helloLine], 5) :=
  ⟨C7_watch_idempotent.1 monoEnv (ShowOptions.ofString "") fixtureDecode false
      [helloLine] [helloLine, " "] (by decide),
    C7_watch_idempotent.2 monoEnv (ShowOptions.ofString "") fixtureDecode false
      5 5 [helloLine] [helloLine] (by decide)⟩

theorem watch_tick_append (env : Env) (opts : ShowOptions)
    (decode : String → Option Json) (ts : Bool) (seen : List String) :
    ∀ old new : List String,
      (∀ l ∈ old, pyStrip l = "" ∨ pyStrip l ∈ seen) →
      watch_tick env opts decode ts seen (old ++ new) =
        watch_tick env opts decode ts seen new
  | [], _, _ => rfl
  | l :: rest, new, h => by
      have hrest := fun x hx => h x (List.mem_cons_of_mem _ hx)
      rcases h l (List.mem_cons_self _ _) with hl | hl
      · simp [watch_tick, hl, watch_tick_append env opts decode ts seen rest new hrest]
      · by_cases he : pyStrip l = ""
        · simp [watch_tick, he, watch_tick_append env opts decode ts seen rest new hrest]
        · simp [watch_tick, he, hl, watch_tick_append env opts decode ts seen rest new hrest]

theorem watch_tick_fresh (env : Env) (opts : ShowOptions)
    (decode : String → Option Json) (ts : Bool) :
    ∀ (new seen : List String),
      (∀ l ∈ new, pyStrip l ≠ "" ∧ pyStrip l ∉ seen) →
      (new.map pyStrip).Nodup →
      (watch_tick env opts decode ts seen new).1 =
        new.filterMap fun l => render_line env opts decode ts (pyStrip l)
  | [], _, _, _ => rfl
  | l :: rest, seen, h, hnd => by
      obtain ⟨hne, hns⟩ := h l (List.mem_cons_self _ _)
      have hndc : pyStrip l ∉ rest.map pyStrip ∧ (rest.map pyStrip).Nodup := by
        rw [List.map_cons, List.nodup_cons] at hnd
        exact hnd
      have hrest : ∀ x ∈ rest, pyStrip x ≠ "" ∧ pyStrip x ∉ (pyStrip l :: seen) := by
        intro x hx
        obtain ⟨h1, h2⟩ := h x (List.mem_cons_of_mem _ hx)
        refine ⟨h1, fun hmem => ?_⟩
        rcases List.mem_cons.mp hmem with heq | hmem'
        · exact hndc.1 (heq ▸ List.mem_map_of_mem pyStrip hx)
        · exact h2 hmem'
      have ih := watch_tick_fresh env opts decode ts rest (pyStrip l :: seen) hrest hndc.2
      simp only [watch_tick, hne, hns, if_false, List.filterMap_cons]
      cases hr : render_line env opts decode ts (pyStrip l) <;>
        simp [watch_tick, hne, hns, hr, ih]

/-- C3 (counterexample): the claim promises exactly N rendered outputs
for N appended well-formed JSON lines.  Appending the single well-formed
line `\x7b"type": "progress"\x7d` produces zero outputs on the next tick:
the line decodes and normalizes fine, but its entry type matches no
rendering branch, so the formatter returns nothing to print. -/
theorem C3_counterexample :
    fixtureDecode (pyStrip progressLine) = some progressEntry ∧
    (watch_tick monoEnv (ShowOptions.ofString "") fixtureDecode false
      [] [progressLine]).1 = [] :=
  ⟨rfl, rfl⟩

/-- C3 (amended): on a tick after N lines are appended, every previously
processed line emits nothing, and the outputs are exactly — in file
order, one each — the rendered results of the appended lines that are
new (non-blank, unseen, mutually distinct fingerprints) and whose entry
renders to a visible (non-null, non-empty) result; appended lines whose
rendering is invisible contribute no output. -/
theorem C3_watch_emits_new (env : Env) (opts : ShowOptions)
    (decode : String → Option Json) (ts : Bool) (seen old new : List String)
    (hold : ∀ l ∈ old, pyStrip l = "" ∨ pyStrip l ∈ seen)
    (hnew : ∀ l ∈ new, pyStrip l ≠ "" ∧ pyStrip l ∉ seen)
    (hnd : (new.map pyStrip).Nodup) :
    (watch_tick env opts decode ts seen (old ++ new)).1 =
      new.filterMap fun l => render_line env opts decode ts (pyStrip l) := by
  rw [watch_tick_append env opts decode ts seen old new hold]
  exact watch_tick_fresh env opts decode ts new seen hnew hnd

/-- C3 (witness): an already-seen line followed by one appended visible
line yields exactly that line's rendering. -/
theorem C3_watch_emits_new_witness :
    (watch_tick monoEnv (ShowOptions.ofString "") fixtureDecode false
      [progressLine] ([progressLine] ++ [helloLine])).1 =
      [helloLine].filterMap (fun l =>
        render_line monoEnv (ShowOptions.ofString "") fixtureDecode false (pyStrip l)) ∧
    [helloLine].filterMap (fun l =>
      render_line monoEnv (ShowOptions.ofString "") fixtureDecode false (pyStrip l)) =
      ["\nUser: Hello"] :=
  ⟨C3_watch_emits_new monoEnv (ShowOptions.ofString "") fixtureDecode false
      [progressLine] [progressLine] [helloLine] (by decide) (by decide) (by decide),
    rfl⟩
